/-
Verification of the Copilot workflow-framework hook scripts.

This file gives a shallow embedding, in Lean 4, of the policy-gate and
workflow-state-aggregation logic implemented by the Python hook scripts
under .github/hooks/ (pre_tool_use.py, stop_check.py, subagent_start.py,
hook_utils.py), and proves properties of that embedding.

Modelling conventions:
* Python strings are Lean String values; character-level work is done on
  String.data (List Char).  Python str truthiness ("if s:") is modelled as
  inequality with "".
* Optional[str] values are Option String; Python None renders as "None" in
  f-strings, which the embedding reproduces via Option.getD "None".
* The regular expressions used by the hooks are embedded as executable
  matchers over List Char that reproduce re.search semantics (leftmost
  match, the specific greedy character classes of each concrete pattern,
  IGNORECASE where the source sets it).  Python \s is [ \t\n\r\f\v] and
  \w is [A-Za-z0-9_] for the ASCII inputs these hooks deal with.
* External effects (git subprocess queries, the filesystem, settings
  loading) are passed in explicitly as oracle records; the hooks never
  write, so a run is a pure function of the event and the oracle.
* JSON values read from board/settings files are modelled by the JVal
  inductive.  Python dict.get returns the stored value (for JSON null the
  stored value is Python None); the helpers below reproduce this.
-/
import Mathlib

namespace CopilotHooks

/-! ### Character and string primitives -/

/-- The apostrophe character (written via its code point). -/
def squote : Char := Char.ofNat 39

/-- The backslash character (written via its code point). -/
def bslash : Char := Char.ofNat 92

/-- Python regex \s over the ASCII range: space, tab, newline, carriage
return, form feed, vertical tab. -/
def pySpace (c : Char) : Bool :=
  c = ' ' || c = '\t' || c = '\n' || c = '\r' || c = Char.ofNat 11 || c = Char.ofNat 12

/-- Python regex \w over the ASCII range. -/
def isWordChar (c : Char) : Bool :=
  c.isAlpha || c.isDigit || c = '_'

/-- Boolean prefix test on character lists (Python str.startswith at the
character level). -/
def listIsPrefix : List Char → List Char → Bool
  | [], _ => true
  | _ :: _, [] => false
  | p :: ps, c :: cs => p = c && listIsPrefix ps cs

/-- Boolean substring test: does the second list occur contiguously inside
the first?  (Python `pat in s`.) -/
def listContainsSub (pat : List Char) : List Char → Bool
  | [] => pat.isEmpty
  | s@(_ :: rest) => listIsPrefix pat s || listContainsSub pat rest

/-- Python `pat in s` on strings. -/
def containsSubstr (s pat : String) : Bool :=
  listContainsSub pat.data s.data

/-- Python str.startswith. -/
def strStartsWith (s pre : String) : Bool :=
  listIsPrefix pre.data s.data

/-- Python str.lower() (ASCII). -/
def pyLower (s : String) : String :=
  String.mk (s.data.map Char.toLower)

/-- Python slicing s[:n]. -/
def pyTake (n : Nat) (s : String) : String :=
  String.mk (s.data.take n)

/-- Strip leading and trailing whitespace from a character list. -/
def stripChars (cs : List Char) : List Char :=
  ((cs.dropWhile pySpace).reverse.dropWhile pySpace).reverse

/-- Python str.strip(). -/
def pyStrip (s : String) : String :=
  String.mk (stripChars s.data)

/-- Split a character list at every occurrence of a character (Python
str.split(sep) with a one-character separator). -/
def splitOnChar (c : Char) : List Char → List (List Char)
  | [] => [[]]
  | x :: xs =>
    match splitOnChar c xs with
    | [] => [[]]
    | y :: ys => if x = c then [] :: y :: ys else (x :: y) :: ys

/-- Truthiness of an Optional[str] Python value. -/
def optTruthy : Option String → Bool
  | some s => s ≠ ""
  | none => false

/-- Render an Optional[str] the way a Python f-string does. -/
def optRender (o : Option String) : String :=
  o.getD "None"

/-- Python sep.join(xs). -/
def pyJoin (sep : String) : List String → String
  | [] => ""
  | x :: xs => xs.foldl (fun acc y => acc ++ sep ++ y) x

/-! ### Regex-matcher building blocks

Each hook regex is embedded as a matcher that tries to recognise the
pattern at the head of a character list ("tail matcher"), combined with a
left-to-right scan that reproduces re.search's leftmost-match rule. -/

/-- Case-insensitively strip a literal from the head of a list, returning
the remainder. -/
def stripLitCI : List Char → List Char → Option (List Char)
  | [], s => some s
  | _ :: _, [] => none
  | p :: ps, c :: cs => if p.toLower = c.toLower then stripLitCI ps cs else none

/-- Case-sensitively strip a literal from the head of a list. -/
def stripLitCS : List Char → List Char → Option (List Char)
  | [], s => some s
  | _ :: _, [] => none
  | p :: ps, c :: cs => if p = c then stripLitCS ps cs else none

/-- Consume regex \s+ greedily (at least one whitespace character).  In
every pattern embedded here the token after \s+ cannot match whitespace,
so greedy consumption without backtracking is exact. -/
def ws1 : List Char → Option (List Char)
  | [] => none
  | c :: cs => if pySpace c then some (cs.dropWhile pySpace) else none

/-- re.search for a Boolean tail matcher: try every start position from
the left. -/
def searchTail (f : List Char → Bool) : List Char → Bool
  | [] => f []
  | s@(_ :: cs) => f s || searchTail f cs

/-- re.search for a capturing tail matcher: the leftmost start position at
which the whole pattern matches wins. -/
def searchCapTail (f : List Char → Option (List Char)) : List Char → Option (List Char)
  | [] => f []
  | s@(_ :: cs) =>
    match f s with
    | some v => some v
    | none => searchCapTail f cs

/-! ### JSON values

Parsed JSON as the hooks see it (json.loads).  Objects keep field order
(Python dicts preserve insertion order); lookups take the first matching
key.  Rendering of container values by Python str() is abstracted by a
compact stand-in — no claim in this development depends on that text. -/

inductive JVal where
  | null : JVal
  | bool : Bool → JVal
  | num : Int → JVal
  | str : String → JVal
  | arr : List JVal → JVal
  | obj : List (String × JVal) → JVal

/-- First-match association lookup over object fields. -/
def fieldGet : List (String × JVal) → String → Option JVal
  | [], _ => none
  | (k, v) :: rest, key => if k = key then some v else fieldGet rest key

/-- Python dict.get(key) on a JVal known to be an object: none iff the
value is not an object or the key is absent; a stored JSON null is
returned as `some JVal.null` (Python returns the stored None). -/
def jGetRaw : JVal → String → Option JVal
  | JVal.obj fs, key => fieldGet fs key
  | _, _ => none

/-- Python dict.get(key, default) where the default is an empty dict, as
used for nested settings/board sections. -/
def jGetObjD (j : JVal) (key : String) : JVal :=
  (jGetRaw j key).getD (JVal.obj [])

/-- Python truthiness of a JSON value ("if settings:"). -/
def pyTruthy : JVal → Bool
  | JVal.null => false
  | JVal.bool b => b
  | JVal.num n => n ≠ 0
  | JVal.str s => s ≠ ""
  | JVal.arr xs => !xs.isEmpty
  | JVal.obj fs => !fs.isEmpty

/-- Stand-in for Python str() as used in the hooks' f-strings: exact for
None/bool/int/str (the cases the claims exercise), abstract but
deterministic for containers. -/
def jvalRender : JVal → String
  | JVal.null => "None"
  | JVal.bool true => "True"
  | JVal.bool false => "False"
  | JVal.num n => toString n
  | JVal.str s => s
  | JVal.arr xs => "<list of " ++ toString xs.length ++ ">"
  | JVal.obj fs => "<dict of " ++ toString fs.length ++ ">"

/-- board.get(key, default) rendered into an f-string: the stored value is
rendered when the key is present (null renders as "None"), otherwise the
default text is used. -/
def jGetRender (j : JVal) (key : String) (dflt : String) : String :=
  match jGetRaw j key with
  | some v => jvalRender v
  | none => dflt

/-- Extract a string-valued field with default "" (settings lookups such
as branch.user; a null or non-string value is falsy for the uses below). -/
def jGetStrField (j : JVal) (key : String) : String :=
  match jGetRaw j key with
  | some (JVal.str s) => s
  | _ => ""

/-! ### Hook data model (pre_tool_use.py) -/

/-- A PolicyDecision with a non-trivial verdict; `none` at the Option
level means the check offers no opinion (and an event on which every
check is silent is allowed: the hook writes an empty JSON object). -/
inductive Decision where
  | deny : String → Decision
  | ask : String → Decision
deriving DecidableEq

/-- tool_input as the hooks read it: top-level "filePath"/"file_path"
string fields (absent keys are none), the "replacements" array of
multi_replace_string_in_file, and the "command" string (tool_input.get
("command", "") — the default "" is already applied). -/
structure ToolInput where
  filePath : Option String
  file_path : Option String
  replacements : List JVal
  command : String

/-- The hook's stdin event: tool_name (default ""), tool_input, cwd. -/
structure HookInput where
  tool_name : String
  tool_input : ToolInput
  cwd : Option String

/-- External state consulted by pre_tool_use.main: the parsed settings
file (None when missing/malformed), the branch that
hook_utils.get_branch_for_path resolves for a given effective path, and
the repo root found by find_repo_root.  Each is read-only for the hook. -/
structure PtuEnv where
  settings : Option JVal
  branchOf : Option String → Option String
  repoRoot : String

/-- hook_utils.is_main_branch: branch in ("main", "master"). -/
def is_main_branch : Option String → Bool
  | some b => b = "main" || b = "master"
  | none => false

/-- pre_tool_use.FILE_EDIT_TOOLS. -/
def FILE_EDIT_TOOLS : List String :=
  ["create_file", "editFiles", "replace_string_in_file",
   "multi_replace_string_in_file", "edit_notebook_file"]

/-- pre_tool_use.check_main_branch_protection.  The tool_input and
repo_root parameters are kept from the source signature; the body never
reads them. -/
def check_main_branch_protection (tool_name : String) (_tool_input : ToolInput)
    (branch : Option String) (_repo_root : String) : Option Decision :=
  if !is_main_branch branch then none
  else if FILE_EDIT_TOOLS.contains tool_name then
    some (Decision.deny
      ("Direct file edits on '" ++ optRender branch ++ "' branch are prohibited. " ++
       "Create a feature branch with start-feature skill first."))
  else none

/-! ### DANGEROUS_TERMINAL_PATTERNS (pre_tool_use.py lines 40-47)

Each compiled regex is embedded as a Boolean search.  All six carry
re.IGNORECASE in the source. -/

/-- Can regex `main\b` match here, given whether the previous character
was a non-word character (so that \b holds before the m)? -/
def mainWBAt (prevNonWord : Bool) (s : List Char) : Bool :=
  prevNonWord &&
    (match stripLitCI "main".data s with
     | some [] => true
     | some (c :: _) => !isWordChar c
     | none => false)

/-- Scan for `.*\bmain\b` from a position whose previous character is
known: `.` never matches a newline, so the scan stops at one.  The first
argument records whether the character just before the current position
is a non-word character. -/
def scanDotMain (prevNonWord : Bool) : List Char → Bool
  | [] => false
  | s@(c :: cs) => mainWBAt prevNonWord s || (c ≠ '\n' && scanDotMain (!isWordChar c) cs)

/-- Tail matcher for `git\s+push\s+.*\bmain\b`.  After the second \s+ the
previous character is whitespace, hence non-word. -/
def tailGitPushMain (s : List Char) : Bool :=
  match stripLitCI "git".data s >>= ws1 >>= stripLitCI "push".data >>= ws1 with
  | some r => scanDotMain true r
  | none => false

/-- Tail matcher for `git\s+commit\b.*(?:--allow-empty)?` — the trailing
optional group always matches, so only `git\s+commit\b` constrains. -/
def tailGitCommitWB (s : List Char) : Bool :=
  match stripLitCI "git".data s >>= ws1 >>= stripLitCI "commit".data with
  | some [] => true
  | some (c :: _) => !isWordChar c
  | none => false

/-- Tail matcher for `git\s+commit` (the bare pattern used at line 98,
without a word boundary). -/
def tailGitCommitLoose (s : List Char) : Bool :=
  (stripLitCI "git".data s >>= ws1 >>= stripLitCI "commit".data).isSome

/-- Tail matcher for `rm\s+-rf\s+/`. -/
def tailRmRf (s : List Char) : Bool :=
  (stripLitCI "rm".data s >>= ws1 >>= stripLitCI "-rf".data >>= ws1 >>=
   stripLitCS ['/']).isSome

/-- Tail matcher for `Remove-Item\s+-Recurse\s+-Force\s+[/\\]`. -/
def tailRemoveItem (s : List Char) : Bool :=
  match stripLitCI "Remove-Item".data s >>= ws1 >>= stripLitCI "-Recurse".data >>=
        ws1 >>= stripLitCI "-Force".data >>= ws1 with
  | some (c :: _) => c = '/' || c = bslash
  | _ => false

/-- Tail matcher for `DROP\s+TABLE`. -/
def tailDropTable (s : List Char) : Bool :=
  (stripLitCI "DROP".data s >>= ws1 >>= stripLitCI "TABLE".data).isSome

/-- Tail matcher for `DROP\s+DATABASE`. -/
def tailDropDatabase (s : List Char) : Bool :=
  (stripLitCI "DROP".data s >>= ws1 >>= stripLitCI "DATABASE".data).isSome

def searchGitPushMain (cmd : String) : Bool := searchTail tailGitPushMain cmd.data
def searchGitCommitWB (cmd : String) : Bool := searchTail tailGitCommitWB cmd.data
def searchGitCommitLoose (cmd : String) : Bool := searchTail tailGitCommitLoose cmd.data
def searchRmRf (cmd : String) : Bool := searchTail tailRmRf cmd.data
def searchRemoveItem (cmd : String) : Bool := searchTail tailRemoveItem cmd.data
def searchDropTable (cmd : String) : Bool := searchTail tailDropTable cmd.data
def searchDropDatabase (cmd : String) : Bool := searchTail tailDropDatabase cmd.data

/-- Does any entry of DANGEROUS_TERMINAL_PATTERNS match the command? -/
def anyDangerousPattern (cmd : String) : Bool :=
  searchGitPushMain cmd || searchGitCommitWB cmd || searchRmRf cmd ||
  searchRemoveItem cmd || searchDropTable cmd || searchDropDatabase cmd

/-- pre_tool_use.check_terminal_safety.

The source iterates DANGEROUS_TERMINAL_PATTERNS and runs, for the first
matching pattern, a body that depends only on the command and branch (not
on which pattern matched); when that body neither denies nor returns, the
loop re-runs the identical body for every later matching pattern with the
same outcome.  The loop is therefore equivalent to: if any pattern
matches, evaluate the body once. -/
def check_terminal_safety (tool_name : String) (tool_input : ToolInput)
    (branch : Option String) : Option Decision :=
  if tool_name ≠ "run_in_terminal" then none
  else if tool_input.command = "" then none
  else if is_main_branch branch && searchGitCommitLoose tool_input.command then
    some (Decision.deny
      ("Committing directly on main branch is prohibited. " ++
       "Use a feature branch and submit-pull-request skill."))
  else if anyDangerousPattern tool_input.command then
    if containsSubstr (pyLower tool_input.command) "git push" &&
       containsSubstr (pyLower tool_input.command) "main" then
      if is_main_branch branch then
        some (Decision.deny
          ("Direct push to main is prohibited. " ++
           "Use submit-pull-request skill to create a PR."))
      else none
    else if containsSubstr (pyLower tool_input.command) "rm -rf /" ||
            containsSubstr (pyLower tool_input.command) "drop table" ||
            containsSubstr (pyLower tool_input.command) "drop database" then
      some (Decision.deny
        ("Destructive command blocked by safety policy: " ++
         pyTake 80 tool_input.command))
    else none
  else none

/-! ### check_branch_naming (pre_tool_use.py lines 140-187) -/

/-- Tail matcher for `git\s+(?:branch|checkout\s+-b|switch\s+-c)\s+(\S+)`
(IGNORECASE), returning capture group 1.  The three alternatives begin
with distinct letters, so the ordered first-success try is exactly the
regex alternation. -/
def tailBranchCreate (s : List Char) : Option (List Char) :=
  match stripLitCI "git".data s >>= ws1 with
  | none => none
  | some r =>
    let afterAlt : Option (List Char) :=
      match stripLitCI "branch".data r with
      | some r1 => some r1
      | none =>
        match stripLitCI "checkout".data r >>= ws1 >>= stripLitCI "-b".data with
        | some r2 => some r2
        | none => stripLitCI "switch".data r >>= ws1 >>= stripLitCI "-c".data
    match afterAlt >>= ws1 with
    | none => none
    | some r3 =>
      let cap := r3.takeWhile (fun c => !pySpace c)
      if cap.isEmpty then none else some cap

/-- The branch-creation detection regex applied with re.search. -/
def searchBranchCreate (cmd : String) : Option String :=
  (searchCapTail tailBranchCreate cmd.data).map String.mk

/-- pre_tool_use.check_branch_naming. -/
def check_branch_naming (tool_name : String) (tool_input : ToolInput)
    (settings : Option JVal) : Option Decision :=
  if tool_name ≠ "run_in_terminal" then none
  else
    match searchBranchCreate tool_input.command with
    | none => none
    | some branch_name =>
      match settings with
      | none => none
      | some sv =>
        if !pyTruthy sv then none
        else
          let branch_config := jGetObjD sv "branch"
          let userPref := jGetStrField branch_config "user"
          if userPref ≠ "" && !strStartsWith branch_name (userPref ++ "/") then
            some (Decision.ask
              ("Branch '" ++ branch_name ++ "' does not start with user prefix '" ++
               userPref ++ "/'. Expected format: " ++
               jGetRender branch_config "format" "<user>/<type>-<description>" ++
               ". Proceed anyway?"))
          else none

/-! ### Effective-location extraction (pre_tool_use.py lines 190-251) -/

/-- pre_tool_use.extract_file_path_from_tool.  Python `a or b` prefers a
truthy (non-empty, non-None) a; the final `if file_path:` guard means an
empty string never escapes through the top-level branch; the nested
multi_replace branch returns replacements[0].get("filePath") unguarded. -/
def extract_file_path_from_tool (tool_name : String) (ti : ToolInput) : Option String :=
  let fp := if optTruthy ti.filePath then ti.filePath else ti.file_path
  if optTruthy fp then fp
  else if tool_name = "multi_replace_string_in_file" then
    match ti.replacements with
    | JVal.obj fs :: _ =>
      match fieldGet fs "filePath" with
      | some (JVal.str s) => some s
      | _ => none
    | _ => none
  else none

/-- Parse a quoted argument `["']([^"']+)["']`: an opening quote (either
kind), a non-empty run free of both quote characters, a closing quote
(either kind). -/
def quotedArg : List Char → Option (List Char)
  | [] => none
  | q :: rest =>
    if q = '"' || q = squote then
      let content := rest.takeWhile (fun c => c ≠ '"' && c ≠ squote)
      if content.isEmpty then none
      else
        match rest.drop content.length with
        | c2 :: _ => if c2 = '"' || c2 = squote then some content else none
        | [] => none
    else none

/-- Parse `([^\s;&|]+)`: a non-empty run excluding whitespace and the
shell separators. -/
def unquotedSepArg (s : List Char) : Option (List Char) :=
  let cap := s.takeWhile (fun c => !pySpace c && c ≠ ';' && c ≠ '&' && c ≠ '|')
  if cap.isEmpty then none else some cap

/-- Parse `([^\s]+)`: a non-empty run of non-whitespace. -/
def nonWsArg (s : List Char) : Option (List Char) :=
  let cap := s.takeWhile (fun c => !pySpace c)
  if cap.isEmpty then none else some cap

/-- Tail matcher for `cd\s+["']([^"']+)["']` (case-sensitive). -/
def tailCdQuoted (s : List Char) : Option (List Char) :=
  stripLitCS "cd".data s >>= ws1 >>= quotedArg

/-- Tail matcher for `cd\s+([^\s;&|]+)` (case-sensitive). -/
def tailCdUnquoted (s : List Char) : Option (List Char) :=
  stripLitCS "cd".data s >>= ws1 >>= unquotedSepArg

/-- Tail matcher for `Push-Location\s+["']([^"']+)["']` (IGNORECASE). -/
def tailPushLocQuoted (s : List Char) : Option (List Char) :=
  stripLitCI "Push-Location".data s >>= ws1 >>= quotedArg

/-- Tail matcher for `Push-Location\s+([^\s;&|]+)` (IGNORECASE). -/
def tailPushLocUnquoted (s : List Char) : Option (List Char) :=
  stripLitCI "Push-Location".data s >>= ws1 >>= unquotedSepArg

/-- Tail matcher for `git\s+-C\s+["']([^"']+)["']` (case-sensitive). -/
def tailGitCQuoted (s : List Char) : Option (List Char) :=
  stripLitCS "git".data s >>= ws1 >>= stripLitCS "-C".data >>= ws1 >>= quotedArg

/-- Tail matcher for `git\s+-C\s+([^\s]+)` (case-sensitive). -/
def tailGitCUnquoted (s : List Char) : Option (List Char) :=
  stripLitCS "git".data s >>= ws1 >>= stripLitCS "-C".data >>= ws1 >>= nonWsArg

/-- The six searches of _TERMINAL_CWD_PATTERNS, in source order. -/
def cwdPatternSearches (cmd : String) : List (Option (List Char)) :=
  [searchCapTail tailCdQuoted cmd.data,
   searchCapTail tailCdUnquoted cmd.data,
   searchCapTail tailPushLocQuoted cmd.data,
   searchCapTail tailPushLocUnquoted cmd.data,
   searchCapTail tailGitCQuoted cmd.data,
   searchCapTail tailGitCUnquoted cmd.data]

/-- First non-None result of a pattern list. -/
def firstSome : List (Option (List Char)) → Option (List Char)
  | [] => none
  | some v :: _ => some v
  | none :: rest => firstSome rest

/-- pre_tool_use.extract_terminal_effective_cwd: the first pattern (in
declaration order) whose search succeeds supplies the group, which is
stripped of surrounding whitespace. -/
def extract_terminal_effective_cwd (command : String) : Option String :=
  (firstSome (cwdPatternSearches command)).map (fun cs => String.mk (stripChars cs))

/-! ### pre_tool_use.main (lines 254-308) -/

/-- The effective path main resolves before branch lookup: an extracted
file path when truthy; for run_in_terminal without one, the parsed
directory-change target (`effective_cwd or cwd` — an empty extracted
string falls back to cwd); otherwise whatever extraction returned. -/
def ptuFilePath (inp : HookInput) : Option String :=
  let fp0 := extract_file_path_from_tool inp.tool_name inp.tool_input
  if !optTruthy fp0 && inp.tool_name = "run_in_terminal" then
    match extract_terminal_effective_cwd inp.tool_input.command with
    | some s => if s = "" then inp.cwd else some s
    | none => inp.cwd
  else fp0

/-- The branch main resolves via hook_utils.get_branch_for_path. -/
def ptuBranch (inp : HookInput) (env : PtuEnv) : Option String :=
  env.branchOf (ptuFilePath inp)

/-- pre_tool_use.main: run the three checks in priority order; the first
non-trivial decision is written; when all are silent the hook writes an
empty object (modelled as none). -/
def ptuMain (inp : HookInput) (env : PtuEnv) : Option Decision :=
  let branch := ptuBranch inp env
  match check_main_branch_protection inp.tool_name inp.tool_input branch env.repoRoot with
  | some r => some r
  | none =>
    match check_terminal_safety inp.tool_name inp.tool_input branch with
    | some r => some r
    | none => check_branch_naming inp.tool_name inp.tool_input env.settings

/-! ### Board discovery (hook_utils.py lines 98-148)

The filesystem slice the scan can observe.  A directory entry is a child
of a .copilot/boards/ container: its name, whether it is a directory, and
the parsed board.json when that file exists and parses (none covers the
missing-file and malformed-JSON skip cases alike). -/

structure DirEntry where
  name : String
  isDir : Bool
  board : Option JVal

/-- A child of .worktrees/: its name, whether it is a directory, and the
entries of its .copilot/boards/ container (none when that container is
not a directory). -/
structure WorktreeEntry where
  name : String
  isDir : Bool
  boardsEntries : Option (List DirEntry)

/-- The directory tree relevant to find_active_boards, rooted at the repo
root: the .copilot/boards/ container (none when missing) and the
.worktrees/ container (none when missing). -/
structure RepoFS where
  rootEntries : Option (List DirEntry)
  worktrees : Option (List WorktreeEntry)

/-- A scanned board: the parsed record plus the `_board_path` provenance
tag (the board.json path relative to the repo root, separators already
normalised to "/"). -/
structure Board where
  data : JVal
  path : String

/-- hook_utils._scan_boards_dir over one container: skip non-directories
and names starting with "_", keep entries whose board.json parsed, and
tag each with path ++ name ++ "/board.json" (the repo-root-relative
provenance that str(relative_to(repo_root)) yields; `pathTo` is the
container's repo-root-relative path ending in "/"). -/
def scan_boards_dir (pathTo : String) : List DirEntry → List Board
  | [] => []
  | e :: rest =>
    if !e.isDir || strStartsWith e.name "_" then scan_boards_dir pathTo rest
    else
      match e.board with
      | some j => Board.mk j (pathTo ++ e.name ++ "/board.json") :: scan_boards_dir pathTo rest
      | none => scan_boards_dir pathTo rest

/-- _scan_boards_dir when the container may be missing (boards_dir.is_dir
is false: empty result). -/
def scan_boards_dirOpt (pathTo : String) : Option (List DirEntry) → List Board
  | some entries => scan_boards_dir pathTo entries
  | none => []

/-- The repo-root half of find_active_boards. -/
def rootBoards (fs : RepoFS) : List Board :=
  scan_boards_dirOpt ".copilot/boards/" fs.rootEntries

/-- The worktree half of find_active_boards: each directory child of
.worktrees/ (no name filter is applied here) contributes its own boards
container scan. -/
def worktreeBoards (fs : RepoFS) : List Board :=
  match fs.worktrees with
  | none => []
  | some wts =>
    wts.flatMap (fun wt =>
      if !wt.isDir then []
      else scan_boards_dirOpt (".worktrees/" ++ wt.name ++ "/.copilot/boards/") wt.boardsEntries)

/-- hook_utils.find_active_boards: repo-root container first, then every
worktree container, concatenated in scan order. -/
def find_active_boards (fs : RepoFS) : List Board :=
  rootBoards fs ++ worktreeBoards fs

/-- Does any "/"-separated component of a path start with "_"? -/
def hasUnderscoreComponent (p : String) : Bool :=
  (splitOnChar '/' p.data).any (fun comp => listIsPrefix ['_'] comp)

/-! ### Stop hook (stop_check.py) -/

/-- The two git-status captures for one working tree, as the subprocess
helpers return them: has_uncommitted_changes is computed from
`git status --porcelain` stdout, get_uncommitted_summary from
`git status --short` stdout (both degrade to "" on subprocess failure,
which the string model absorbs). -/
structure GitTree where
  porcelain : String
  short : String

/-- hook_utils.has_uncommitted_changes. -/
def has_uncommitted_changes (t : GitTree) : Bool :=
  pyStrip t.porcelain ≠ ""

/-- hook_utils.get_uncommitted_summary. -/
def get_uncommitted_summary (t : GitTree) : String :=
  pyStrip t.short

/-- len(summary.strip().splitlines()) for a summary free of stray \r
(git --short output on Unix); 0 when the summary is empty. -/
def summaryFileCount (summary : String) : Nat :=
  if summary = "" then 0 else (splitOnChar '\n' (pyStrip summary).data).length

/-- External state consulted by stop_check.main: the repo-root branch,
the repo-root git status, the worktree-name → (branch, status) map that
get_worktree_branches plus per-worktree status queries produce (in
.worktrees/ iteration order), and the scanned boards. -/
structure StopEnv where
  branch : Option String
  root : GitTree
  worktreeStatus : List (String × String × GitTree)
  boards : List Board

/-- The issue text check_uncommitted appends for a dirty repo-root tree
(named so theorems can refer to it; the text is exactly the source's
f-string). -/
def uncommittedIssueText (root : GitTree) (branch : Option String) : String :=
  "Uncommitted changes detected (" ++
  toString (summaryFileCount (get_uncommitted_summary root)) ++
  " file(s)) on branch '" ++ optRender branch ++ "'.\n```\n" ++
  get_uncommitted_summary root ++
  "\n```\nConsider committing or stashing these changes."

/-- stop_check.check_uncommitted: silent on the main/master branch;
otherwise a dirty repo-root tree yields one issue embedding the file
count, the branch name and the short status. -/
def check_uncommitted (root : GitTree) (branch : Option String) : List String :=
  if is_main_branch branch then []
  else if has_uncommitted_changes root then [uncommittedIssueText root branch]
  else []

/-- stop_check.check_worktree_uncommitted over the worktree map. -/
def check_worktree_uncommitted : List (String × String × GitTree) → List String
  | [] => []
  | (wtName, wtBranch, tree) :: rest =>
    (if has_uncommitted_changes tree then
      let summary := get_uncommitted_summary tree
      ["Worktree '" ++ wtName ++ "' (branch '" ++ wtBranch ++ "') has " ++
       "uncommitted changes (" ++ toString (summaryFileCount summary) ++
       " file(s)).\n```\n" ++ summary ++
       "\n```\nConsider committing or stashing these changes."]
     else []) ++ check_worktree_uncommitted rest

/-- stop_check.check_board_consistency's expected_artifacts table. -/
def expected_artifacts (flowState : String) : List String :=
  if flowState = "analyzing" then []
  else if flowState = "designing" then ["impact_analysis"]
  else if flowState = "planned" then ["impact_analysis"]
  else if flowState = "implementing" then ["execution_plan"]
  else if flowState = "testing" then ["implementation"]
  else if flowState = "reviewing" then ["implementation", "test_results"]
  else if flowState = "approved" then ["implementation", "review_findings"]
  else if flowState = "documenting" then ["implementation", "review_findings"]
  else if flowState = "submitting" then ["implementation"]
  else []

/-- `artifacts.get(name) is None`: true when the key is absent or its
stored value is JSON null. -/
def artifactMissing (artifacts : List (String × JVal)) (nm : String) : Bool :=
  match fieldGet artifacts nm with
  | none => true
  | some JVal.null => true
  | some _ => false

/-- stop_check.check_board_consistency for one board. -/
def boardIssues (b : Board) : List String :=
  let feature_id := jGetRender b.data "feature_id" "?"
  let fsRaw := jGetRaw b.data "flow_state"
  let flowRendered := match fsRaw with
    | none => "initialized"
    | some v => jvalRender v
  let expected := match fsRaw with
    | none => expected_artifacts "initialized"
    | some (JVal.str s) => expected_artifacts s
    | some _ => []
  let artifacts := match jGetRaw b.data "artifacts" with
    | some (JVal.obj fs) => fs
    | _ => []
  let missing := expected.filter (fun nm => artifactMissing artifacts nm)
  let missingIssue :=
    if missing.isEmpty then []
    else ["Board '" ++ feature_id ++ "' (" ++ b.path ++ ") is in state '" ++
          flowRendered ++ "' but missing expected artifacts: " ++
          pyJoin ", " missing ++ "."]
  let isEndpoint := match fsRaw with
    | none => true
    | some (JVal.str s) => s = "initialized" || s = "completed"
    | some _ => false
  let midIssue :=
    if isEndpoint then []
    else ["Board '" ++ feature_id ++ "' is in mid-workflow state '" ++ flowRendered ++
          "'. Consider resuming or documenting the current progress."]
  missingIssue ++ midIssue

/-- stop_check.check_board_consistency. -/
def check_board_consistency : List Board → List String
  | [] => []
  | b :: rest => boardIssues b ++ check_board_consistency rest

/-- The concatenated issue list stop_check.main assembles. -/
def stopAllIssues (env : StopEnv) : List String :=
  check_uncommitted env.root env.branch ++
  check_worktree_uncommitted env.worktreeStatus ++
  check_board_consistency env.boards

/-- stop_check.main: with the continuation flag set the hook immediately
writes an empty object; otherwise issues (if any) produce a block
decision whose reason enumerates them.  The result is the block reason,
or none for the empty decision. -/
def stopMain (stop_hook_active : Bool) (env : StopEnv) : Option String :=
  if stop_hook_active then none
  else
    let allIssues := stopAllIssues env
    if allIssues.isEmpty then none
    else
      some ("[Stop Hook — Issues Detected]\n" ++
            pyJoin "\n\n" (allIssues.map (fun issue => "- " ++ issue)) ++
            "\n\nAddress these issues or acknowledge them before ending the session.")

/-! ### SubagentStart hook (subagent_start.py) -/

/-- subagent_start.AGENT_BOARD_FIELDS. -/
def AGENT_BOARD_FIELDS (agent_type : String) : List String :=
  if agent_type = "manager" then
    ["feature_id", "maturity", "cycle", "flow_state", "gate_profile",
     "artifacts.impact_analysis", "artifacts.execution_plan",
     "artifacts.review_findings"]
  else if agent_type = "architect" then
    ["feature_id", "maturity", "flow_state",
     "artifacts.impact_analysis", "artifacts.architecture_decision"]
  else if agent_type = "developer" then
    ["feature_id", "maturity", "flow_state",
     "artifacts.execution_plan", "artifacts.architecture_decision",
     "artifacts.review_findings", "artifacts.implementation"]
  else if agent_type = "reviewer" then
    ["feature_id", "maturity", "flow_state",
     "artifacts.execution_plan", "artifacts.implementation",
     "artifacts.test_results", "artifacts.review_findings"]
  else if agent_type = "writer" then
    ["feature_id", "maturity", "flow_state",
     "artifacts.execution_plan", "artifacts.implementation",
     "artifacts.review_findings"]
  else []

/-- subagent_start.extract_nested_field's traversal loop.  The running
Python value is Option JVal with JSON null collapsed to none: dict.get on
a missing key and a stored null both hand Python None to the next
iteration, where the isinstance check fails. -/
def nestedFieldGo : Option JVal → List String → Option JVal
  | cur, [] => cur
  | some (JVal.obj fs), key :: rest =>
    nestedFieldGo
      (match fieldGet fs key with
       | some JVal.null => none
       | x => x) rest
  | _, _ :: _ => none

/-- subagent_start.extract_nested_field over a dot-separated path. -/
def extract_nested_field (data : JVal) (fieldPath : String) : Option JVal :=
  nestedFieldGo (some data) ((splitOnChar '.' fieldPath.data).map String.mk)

/-- The rendering of one extracted agent field (subagent_start.py lines
112-121): dicts render their summary/description (or a 200-character
prefix of their str()), lists render as an item count, scalars render
directly; a None extraction is skipped (none here). -/
def renderAgentField (fieldPath : String) (v : JVal) : String :=
  match v with
  | JVal.obj fs =>
    let summary :=
      match fieldGet fs "summary" with
      | some sv => jvalRender sv
      | none =>
        match fieldGet fs "description" with
        | some dv => jvalRender dv
        | none => pyTake 200 (jvalRender (JVal.obj fs))
    fieldPath ++ ": " ++ summary
  | JVal.arr xs => fieldPath ++ ": [" ++ toString xs.length ++ " items]"
  | other => fieldPath ++ ": " ++ jvalRender other

/-- The agent-specific field lines of build_agent_context: core-state
fields are skipped, a field extracted as None is skipped. -/
def agentFieldLines (board : JVal) : List String → List String
  | [] => []
  | fieldPath :: rest =>
    if fieldPath = "feature_id" || fieldPath = "maturity" || fieldPath = "flow_state" ||
       fieldPath = "cycle" || fieldPath = "gate_profile" then
      agentFieldLines board rest
    else
      match extract_nested_field board fieldPath with
      | some v => renderAgentField fieldPath v :: agentFieldLines board rest
      | none => agentFieldLines board rest

/-- The gate-status digest of build_agent_context: dict-valued gates whose
"status" differs from "not_reached" (an absent status counts as active
and renders as "?"; a null status renders as "None"). -/
def activeGateLines : List (String × JVal) → List String
  | [] => []
  | (nm, JVal.obj gfs) :: rest =>
    (match fieldGet gfs "status" with
     | none => [nm ++ "=?"]
     | some (JVal.str s) => if s = "not_reached" then [] else [nm ++ "=" ++ s]
     | some v => [nm ++ "=" ++ jvalRender v]) ++ activeGateLines rest
  | (_, _) :: rest => activeGateLines rest

/-- The settings-summary lines of build_agent_context (lines 99-105). -/
def settingsLines (agent_type : String) : Option JVal → List String
  | none => []
  | some sv =>
    if !pyTruthy sv then []
    else
      let tracker := jGetObjD sv "issueTracker"
      let trackerLine := "Issue tracker: " ++ jGetRender tracker "provider" "none"
      let test_config := jGetObjD (jGetObjD sv "project") "test"
      let cmd := jGetStrField test_config "command"
      trackerLine ::
        (if cmd ≠ "" && agent_type = "developer" then ["Test command: " ++ cmd] else [])

/-- subagent_start.build_agent_context. -/
def build_agent_context (agent_type : String) (board : JVal) (board_path : String)
    (settings : Option JVal) : String :=
  let core :=
    "Feature: " ++ jGetRender board "feature_id" "?" ++
    " | State: " ++ jGetRender board "flow_state" "?" ++
    " | Maturity: " ++ jGetRender board "maturity" "?" ++
    " | Cycle: " ++ jGetRender board "cycle" "?" ++
    " | Profile: " ++ jGetRender board "gate_profile" "?"
  let gates := match jGetRaw board "gates" with
    | some (JVal.obj gfs) => gfs
    | _ => []
  let gateLines :=
    let active := activeGateLines gates
    if active.isEmpty then [] else ["Gates: " ++ pyJoin ", " active]
  pyJoin "\n"
    (["[SubagentStart Hook — Board Context for " ++ agent_type ++ "]",
      "Board path: " ++ board_path, core] ++
     settingsLines agent_type settings ++
     agentFieldLines board (AGENT_BOARD_FIELDS agent_type) ++
     gateLines)

/-- subagent_start.main, reduced to the additionalContext string it
injects: without boards, a no-board banner (plus a project line when
settings are truthy); with boards, the context built from the FIRST board
of the scan, whose `_board_path` tag is popped as the board path. -/
def subagentMain (agent_type_raw : String) (settings : Option JVal)
    (boards : List Board) : String :=
  let agent_type := pyLower agent_type_raw
  match boards with
  | [] =>
    let base := "[SubagentStart Hook — No active Board found for " ++ agent_type ++ "]"
    match settings with
    | some sv =>
      if pyTruthy sv then
        let project := jGetObjD sv "project"
        base ++ "\nProject: " ++ jGetRender project "name" "?" ++ " (" ++
          jGetRender project "language" "?" ++ ")"
      else base
    | none => base
  | b :: _ => build_agent_context agent_type b.data b.path settings

/-! ### Helper lemmas -/

theorem listIsPrefix_append_self (p t : List Char) : listIsPrefix p (p ++ t) = true := by
  induction p with
  | nil => rfl
  | cons c cs ih => simp [listIsPrefix, ih]

theorem listContainsSub_nil (t : List Char) : listContainsSub [] t = true := by
  cases t with
  | nil => rfl
  | cons c cs => simp [listContainsSub, listIsPrefix]

theorem listContainsSub_append (pat a t : List Char) :
    listContainsSub pat (a ++ (pat ++ t)) = true := by
  induction a with
  | nil =>
    cases pat with
    | nil => exact listContainsSub_nil t
    | cons c cs =>
      simp only [List.nil_append, listContainsSub, Bool.or_eq_true]
      exact Or.inl (listIsPrefix_append_self _ _)
  | cons c cs ih =>
    cases h : (c :: cs) ++ (pat ++ t) with
    | nil => simp at h
    | cons d ds =>
      simp only [List.cons_append] at h
      cases h
      simpa [listContainsSub] using Or.inr ih

/-- A string built as left ++ mid ++ right contains mid as a substring. -/
theorem containsSubstr_append (x y z : String) : containsSubstr (x ++ y ++ z) y = true := by
  show listContainsSub y.data (x ++ y ++ z).data = true
  rw [String.data_append, String.data_append, List.append_assoc]
  exact listContainsSub_append y.data x.data z.data

/-- Substring containment via an explicit decomposition. -/
theorem containsSubstr_of_eq (s x y z : String) (h : s = x ++ y ++ z) :
    containsSubstr s y = true := by
  rw [h]; exact containsSubstr_append x y z

/-- pyJoin over a non-empty list extends its head on the right. -/
theorem pyJoin_cons_exists (sep x : String) (xs : List String) :
    ∃ t, pyJoin sep (x :: xs) = x ++ t := by
  show ∃ t, xs.foldl (fun acc y => acc ++ sep ++ y) x = x ++ t
  suffices h : ∀ (ys : List String) (acc : String),
      ∃ t, ys.foldl (fun a y => a ++ sep ++ y) acc = acc ++ t by
    exact h xs x
  intro ys
  induction ys with
  | nil => intro acc; exact ⟨"", by simp⟩
  | cons y yts ih =>
    intro acc
    obtain ⟨t, ht⟩ := ih (acc ++ sep ++ y)
    exact ⟨sep ++ y ++ t, by simp only [List.foldl_cons, ht]; simp [String.append_assoc]⟩

/-! ### Claim theorems -/

/-- C1: the protected-branch guard (check_main_branch_protection) returns a
deny decision exactly when the tool name is in the file-mutation set AND
the resolved branch is "main" or "master"; that deny's reason text names
the branch; for every other branch or tool the guard yields no opinion. -/
theorem C1_protected_branch_guard (tool : String) (ti : ToolInput)
    (branch : Option String) (rr : String) :
    ((check_main_branch_protection tool ti branch rr).isSome = true ↔
      (tool ∈ FILE_EDIT_TOOLS ∧
       (branch = some "main" ∨ branch = some "master"))) ∧
    (∀ b d, branch = some b →
      check_main_branch_protection tool ti branch rr = some d →
      ∃ r, d = Decision.deny r ∧ containsSubstr r b = true) := by
  have hmb : is_main_branch branch = true ↔ (branch = some "main" ∨ branch = some "master") := by
    cases branch with
    | none => simp [is_main_branch]
    | some b => simp [is_main_branch]
  constructor
  · by_cases hm : is_main_branch branch = true
    · by_cases hc : tool ∈ FILE_EDIT_TOOLS
      · simp [check_main_branch_protection, hm, hc]
        exact hmb.mp hm
      · simp [check_main_branch_protection, hm, hc]
    · simp only [Bool.not_eq_true] at hm
      simp only [check_main_branch_protection, hm, Bool.not_false, if_true,
        Option.isSome_none, Bool.false_eq_true, false_iff]
      intro h
      rw [hm] at hmb
      exact absurd (hmb.mpr h.2) (by simp)
  · intro b d hb hd
    subst hb
    by_cases hm : is_main_branch (some b) = true
    · by_cases hc : tool ∈ FILE_EDIT_TOOLS
      · have hck : check_main_branch_protection tool ti (some b) rr =
            some (Decision.deny
              ("Direct file edits on '" ++ optRender (some b) ++
               "' branch are prohibited. " ++
               "Create a feature branch with start-feature skill first.")) := by
          simp [check_main_branch_protection, hm, hc]
        rw [hck] at hd
        simp only [Option.some_inj] at hd
        refine ⟨_, hd.symm, ?_⟩
        show containsSubstr
          ("Direct file edits on '" ++ optRender (some b) ++ "' branch are prohibited. " ++
           "Create a feature branch with start-feature skill first.") b = true
        have he : ("Direct file edits on '" ++ optRender (some b) ++
            "' branch are prohibited. " ++
            "Create a feature branch with start-feature skill first.") =
            "Direct file edits on '" ++ b ++
            ("' branch are prohibited. " ++
             "Create a feature branch with start-feature skill first.") := by
          simp [optRender, String.append_assoc]
        rw [he]
        exact containsSubstr_append "Direct file edits on '" b _
      · simp [check_main_branch_protection, hm, hc] at hd
    · simp only [Bool.not_eq_true] at hm
      simp [check_main_branch_protection, hm] at hd

/-- Witness for C1 at a concrete input: a create_file event on branch
"main" is denied with a reason naming "main". -/
theorem C1_witness :
    ∃ d, check_main_branch_protection "create_file" (ToolInput.mk none none [] "")
        (some "main") "/repo" = some d ∧
      ∃ r, d = Decision.deny r ∧ containsSubstr r "main" = true := by
  have h := C1_protected_branch_guard "create_file" (ToolInput.mk none none [] "")
    (some "main") "/repo"
  have hs := h.1.mpr ⟨by decide, Or.inl rfl⟩
  obtain ⟨d, hd⟩ := Option.isSome_iff_exists.mp hs
  exact ⟨d, hd, h.2 "main" d rfl hd⟩

/-- C2: on every event pre_tool_use.main produces exactly one decision
value; the checks run in the fixed order protected-branch guard,
unsafe-command guard, branch-naming advisory; the first check returning a
non-trivial result short-circuits the rest; and no event yields both a
deny and an ask. -/
theorem C2_pipeline_order (inp : HookInput) (env : PtuEnv) :
    (∀ d, check_main_branch_protection inp.tool_name inp.tool_input
        (ptuBranch inp env) env.repoRoot = some d → ptuMain inp env = some d) ∧
    (check_main_branch_protection inp.tool_name inp.tool_input
        (ptuBranch inp env) env.repoRoot = none →
      ∀ d, check_terminal_safety inp.tool_name inp.tool_input (ptuBranch inp env) = some d →
        ptuMain inp env = some d) ∧
    (check_main_branch_protection inp.tool_name inp.tool_input
        (ptuBranch inp env) env.repoRoot = none →
      check_terminal_safety inp.tool_name inp.tool_input (ptuBranch inp env) = none →
        ptuMain inp env = check_branch_naming inp.tool_name inp.tool_input env.settings) ∧
    (∀ r1 r2, ¬(ptuMain inp env = some (Decision.deny r1) ∧
                ptuMain inp env = some (Decision.ask r2))) := by
  refine ⟨?_, ?_, ?_, ?_⟩
  · intro d h
    simp [ptuMain, h]
  · intro h1 d h2
    simp [ptuMain, h1, h2]
  · intro h1 h2
    simp [ptuMain, h1, h2]
  · intro r1 r2 h
    rw [h.1] at h
    have := h.2
    simp at this

/-- Witness for C2 at a concrete event on which every check is silent:
main returns the branch-naming result, the empty (allow) decision. -/
theorem C2_witness :
    ptuMain (HookInput.mk "noop" (ToolInput.mk none none [] "") none)
      (PtuEnv.mk none (fun _ => none) "") = none := by
  have h := (C2_pipeline_order (HookInput.mk "noop" (ToolInput.mk none none [] "") none)
    (PtuEnv.mk none (fun _ => none) "")).2.2.1 rfl rfl
  rw [h]
  rfl

/-- The protected-branch guard is silent for any tool outside the
file-mutation set, whatever the branch. -/
theorem cmbp_none_of_not_edit (tool : String) (ti : ToolInput) (branch : Option String)
    (rr : String) (h : ¬ tool ∈ FILE_EDIT_TOOLS) :
    check_main_branch_protection tool ti branch rr = none := by
  by_cases hm : is_main_branch branch = true
  · simp [check_main_branch_protection, hm, h]
  · simp only [Bool.not_eq_true] at hm
    simp [check_main_branch_protection, hm]

/-- C3 (code_bug evidence): the command "rm  -rf /" — a recursive forced
deletion rooted at filesystem root, with two spaces — IS matched by the
DANGEROUS_TERMINAL_PATTERNS regex (rm\s+-rf\s+/), yet check_terminal_safety
returns no opinion on every branch (the deny body additionally requires
the literal single-space substring "rm -rf /"), and the whole
pre_tool_use pipeline consequently allows the event for every oracle. -/
theorem C3_rm_rf_root_not_denied :
    searchRmRf "rm  -rf /" = true ∧
    (∀ branch, check_terminal_safety "run_in_terminal"
        (ToolInput.mk none none [] "rm  -rf /") branch = none) ∧
    (∀ env, ptuMain (HookInput.mk "run_in_terminal"
        (ToolInput.mk none none [] "rm  -rf /") (some "/repo")) env = none) := by
  have key : ∀ branch, check_terminal_safety "run_in_terminal"
      (ToolInput.mk none none [] "rm  -rf /") branch = none := by
    intro branch
    cases hm : is_main_branch branch with
    | false =>
      simp only [check_terminal_safety, hm]
      decide
    | true =>
      simp only [check_terminal_safety, hm]
      decide
  refine ⟨by decide, key, ?_⟩
  intro env
  have h1 := cmbp_none_of_not_edit "run_in_terminal" (ToolInput.mk none none [] "rm  -rf /")
    (ptuBranch (HookInput.mk "run_in_terminal"
      (ToolInput.mk none none [] "rm  -rf /") (some "/repo")) env) env.repoRoot (by decide)
  have h2 := key (ptuBranch (HookInput.mk "run_in_terminal"
      (ToolInput.mk none none [] "rm  -rf /") (some "/repo")) env)
  have h3 : check_branch_naming "run_in_terminal"
      (ToolInput.mk none none [] "rm  -rf /") env.settings = none := by
    simp [check_branch_naming,
      show searchBranchCreate "rm  -rf /" = none from by decide]
  simp [ptuMain, h1, h2, h3]

/-- C4 counterexample: a forced push naming the protected branch "master",
evaluated while the resolved branch IS "master", is not denied — the
unsafe-command guard yields no opinion, because the push pattern only
recognises "main". -/
theorem C4_counterexample :
    is_main_branch (some "master") = true ∧
    check_terminal_safety "run_in_terminal"
      (ToolInput.mk none none [] "git push --force origin master")
      (some "master") = none := by
  constructor
  · decide
  · decide

/-- C4 amended: the push rule of DANGEROUS_TERMINAL_PATTERNS only matches
pushes naming "main".  A forced push naming "main" is denied by the
unsafe-command guard exactly when the resolved branch is protected
("main" or "master"), with the direct-push reason; a forced push naming
only "master" is never denied, whatever the resolved branch. -/
theorem C4_push_protected_amended (branch : Option String) :
    check_terminal_safety "run_in_terminal"
        (ToolInput.mk none none [] "git push --force origin main") branch =
      (if is_main_branch branch then
        some (Decision.deny ("Direct push to main is prohibited. " ++
          "Use submit-pull-request skill to create a PR."))
       else none) ∧
    check_terminal_safety "run_in_terminal"
        (ToolInput.mk none none [] "git push --force origin master") branch = none := by
  cases hm : is_main_branch branch with
  | false =>
    simp only [check_terminal_safety, hm]
    exact ⟨by decide, by decide⟩
  | true =>
    simp only [check_terminal_safety, hm]
    exact ⟨by decide, by decide⟩

/-- C5 counterexample: a dirty repo-root tree with the resolved branch
"main" and the continuation flag false yields NO uncommitted-changes
issue and an empty stop decision — check_uncommitted returns early on
main/master, so the claim's "for every resolved branch, including 'main'
and 'master'" fails. -/
theorem C5_counterexample :
    has_uncommitted_changes (GitTree.mk "M a.txt" " M a.txt") = true ∧
    check_uncommitted (GitTree.mk "M a.txt" " M a.txt") (some "main") = [] ∧
    stopMain false
      (StopEnv.mk (some "main") (GitTree.mk "M a.txt" " M a.txt") [] []) = none := by
  refine ⟨by decide, by decide, by decide⟩

/-- C5 amended: with the continuation flag false and the resolved branch
OUTSIDE the main/master set, a dirty repo-root tree yields exactly one
uncommitted-changes issue, whose text embeds the short status output and
the changed-file count; that issue heads the stop-time issue list and the
resulting block reason contains it.  (On main/master the repo-root
uncommitted check is skipped.) -/
theorem C5_uncommitted_amended (env : StopEnv)
    (hmain : is_main_branch env.branch = false)
    (hdirty : has_uncommitted_changes env.root = true) :
    check_uncommitted env.root env.branch = [uncommittedIssueText env.root env.branch] ∧
    containsSubstr (uncommittedIssueText env.root env.branch)
      (get_uncommitted_summary env.root) = true ∧
    containsSubstr (uncommittedIssueText env.root env.branch)
      (toString (summaryFileCount (get_uncommitted_summary env.root))) = true ∧
    (stopAllIssues env).head? = some (uncommittedIssueText env.root env.branch) ∧
    ∃ reason, stopMain false env = some reason ∧
      containsSubstr reason (uncommittedIssueText env.root env.branch) = true := by
  have hcu : check_uncommitted env.root env.branch =
      [uncommittedIssueText env.root env.branch] := by
    simp [check_uncommitted, hmain, hdirty]
  have hall : stopAllIssues env = uncommittedIssueText env.root env.branch ::
      (check_worktree_uncommitted env.worktreeStatus ++
       check_board_consistency env.boards) := by
    simp [stopAllIssues, hcu]
  refine ⟨hcu, ?_, ?_, ?_, ?_⟩
  · exact containsSubstr_of_eq _
      ("Uncommitted changes detected (" ++
       toString (summaryFileCount (get_uncommitted_summary env.root)) ++
       " file(s)) on branch '" ++ optRender env.branch ++ "'.\n```\n")
      (get_uncommitted_summary env.root)
      "\n```\nConsider committing or stashing these changes." rfl
  · exact containsSubstr_of_eq _
      "Uncommitted changes detected ("
      (toString (summaryFileCount (get_uncommitted_summary env.root)))
      (" file(s)) on branch '" ++ optRender env.branch ++ "'.\n```\n" ++
       get_uncommitted_summary env.root ++
       "\n```\nConsider committing or stashing these changes.")
      (by simp [uncommittedIssueText, String.append_assoc])
  · simp [hall]
  · have hne : (stopAllIssues env).isEmpty = false := by rw [hall]; rfl
    have hsm : stopMain false env =
        some ("[Stop Hook — Issues Detected]\n" ++
          pyJoin "\n\n" ((stopAllIssues env).map (fun issue => "- " ++ issue)) ++
          "\n\nAddress these issues or acknowledge them before ending the session.") := by
      simp [stopMain, hne]
    refine ⟨_, hsm, ?_⟩
    have hmap : (stopAllIssues env).map (fun issue => "- " ++ issue) =
        ("- " ++ uncommittedIssueText env.root env.branch) ::
        (check_worktree_uncommitted env.worktreeStatus ++
         check_board_consistency env.boards).map (fun issue => "- " ++ issue) := by
      rw [hall]; rfl
    obtain ⟨t, ht⟩ := pyJoin_cons_exists "\n\n"
      ("- " ++ uncommittedIssueText env.root env.branch)
      ((check_worktree_uncommitted env.worktreeStatus ++
        check_board_consistency env.boards).map (fun issue => "- " ++ issue))
    apply containsSubstr_of_eq _
      ("[Stop Hook — Issues Detected]\n" ++ "- ")
      (uncommittedIssueText env.root env.branch)
      (t ++ "\n\nAddress these issues or acknowledge them before ending the session.")
    rw [hmap, ht]
    simp [← String.append_assoc]

/-- Witness for C5's amended theorem at a concrete dirty tree on a
feature branch. -/
theorem C5_witness :
    ∃ reason,
      stopMain false
        (StopEnv.mk (some "alice/fix") (GitTree.mk "M a.txt" " M a.txt") [] []) =
        some reason ∧
      containsSubstr reason
        (uncommittedIssueText (GitTree.mk "M a.txt" " M a.txt")
          (some "alice/fix")) = true := by
  have h := C5_uncommitted_amended
    (StopEnv.mk (some "alice/fix") (GitTree.mk "M a.txt" " M a.txt") [] [])
    (by decide) (by decide)
  exact h.2.2.2.2

/-- C6: a stop-time check with the continuation flag (stop_hook_active)
true returns the empty decision, whatever the git state, worktrees and
boards look like — no external state influences the result. -/
theorem C6_continuation_flag (env env2 : StopEnv) :
    stopMain true env = none ∧ stopMain true env = stopMain true env2 :=
  ⟨rfl, rfl⟩

/-- C7 counterexample: the command cd ' ' (a quoted directory-change
idiom whose target strips to the empty string) IS matched by the idiom
patterns, yet main's effective location falls back to the supplied cwd
hint — refuting "falling back to the cwd hint only when no idiom
matches". -/
theorem C7_counterexample :
    extract_terminal_effective_cwd "cd ' ' && git commit -m x" = some "" ∧
    ptuFilePath (HookInput.mk "run_in_terminal"
      (ToolInput.mk none none [] "cd ' ' && git commit -m x")
      (some "/repo")) = some "/repo" :=
  ⟨by decide, by decide⟩

/-- C7 amended: for a run_in_terminal event with no explicit file path and
command cd /worktrees/foo && git commit -m x, the effective location is
/worktrees/foo, not the supplied cwd hint; the directory-change idioms
are tried in the priority order quoted cd, unquoted cd, Push-Location
(quoted then unquoted), git -C (quoted then unquoted), the first matched
idiom supplying the (whitespace-stripped) result; the effective location
falls back to the cwd hint when no idiom matches OR when the matched
target strips to the empty string (empty strings are falsy in the
`or` fallback). -/
theorem C7_effective_cwd_amended :
    (∀ cmd : String,
      (∀ v, searchCapTail tailCdQuoted cmd.data = some v →
        extract_terminal_effective_cwd cmd = some (String.mk (stripChars v))) ∧
      (searchCapTail tailCdQuoted cmd.data = none →
       ∀ v, searchCapTail tailCdUnquoted cmd.data = some v →
        extract_terminal_effective_cwd cmd = some (String.mk (stripChars v))) ∧
      (searchCapTail tailCdQuoted cmd.data = none →
       searchCapTail tailCdUnquoted cmd.data = none →
       ∀ v, searchCapTail tailPushLocQuoted cmd.data = some v →
        extract_terminal_effective_cwd cmd = some (String.mk (stripChars v))) ∧
      (searchCapTail tailCdQuoted cmd.data = none →
       searchCapTail tailCdUnquoted cmd.data = none →
       searchCapTail tailPushLocQuoted cmd.data = none →
       ∀ v, searchCapTail tailPushLocUnquoted cmd.data = some v →
        extract_terminal_effective_cwd cmd = some (String.mk (stripChars v))) ∧
      (searchCapTail tailCdQuoted cmd.data = none →
       searchCapTail tailCdUnquoted cmd.data = none →
       searchCapTail tailPushLocQuoted cmd.data = none →
       searchCapTail tailPushLocUnquoted cmd.data = none →
       ∀ v, searchCapTail tailGitCQuoted cmd.data = some v →
        extract_terminal_effective_cwd cmd = some (String.mk (stripChars v))) ∧
      (searchCapTail tailCdQuoted cmd.data = none →
       searchCapTail tailCdUnquoted cmd.data = none →
       searchCapTail tailPushLocQuoted cmd.data = none →
       searchCapTail tailPushLocUnquoted cmd.data = none →
       searchCapTail tailGitCQuoted cmd.data = none →
       ∀ v, searchCapTail tailGitCUnquoted cmd.data = some v →
        extract_terminal_effective_cwd cmd = some (String.mk (stripChars v))) ∧
      (searchCapTail tailCdQuoted cmd.data = none →
       searchCapTail tailCdUnquoted cmd.data = none →
       searchCapTail tailPushLocQuoted cmd.data = none →
       searchCapTail tailPushLocUnquoted cmd.data = none →
       searchCapTail tailGitCQuoted cmd.data = none →
       searchCapTail tailGitCUnquoted cmd.data = none →
        extract_terminal_effective_cwd cmd = none)) ∧
    extract_terminal_effective_cwd "cd /worktrees/foo && git commit -m x" =
      some "/worktrees/foo" ∧
    ptuFilePath (HookInput.mk "run_in_terminal"
      (ToolInput.mk none none [] "cd /worktrees/foo && git commit -m x")
      (some "/repo")) = some "/worktrees/foo" ∧
    (∀ inp : HookInput, inp.tool_name = "run_in_terminal" →
      extract_file_path_from_tool inp.tool_name inp.tool_input = none →
      (extract_terminal_effective_cwd inp.tool_input.command = none ∨
       extract_terminal_effective_cwd inp.tool_input.command = some "") →
      ptuFilePath inp = inp.cwd) := by
  refine ⟨?_, by decide, by decide, ?_⟩
  · intro cmd
    refine ⟨?_, ?_, ?_, ?_, ?_, ?_, ?_⟩
    · intro v h1
      simp [extract_terminal_effective_cwd, cwdPatternSearches, firstSome, h1]
    · intro h1 v h2
      simp [extract_terminal_effective_cwd, cwdPatternSearches, firstSome, h1, h2]
    · intro h1 h2 v h3
      simp [extract_terminal_effective_cwd, cwdPatternSearches, firstSome, h1, h2, h3]
    · intro h1 h2 h3 v h4
      simp [extract_terminal_effective_cwd, cwdPatternSearches, firstSome, h1, h2, h3, h4]
    · intro h1 h2 h3 h4 v h5
      simp [extract_terminal_effective_cwd, cwdPatternSearches, firstSome,
        h1, h2, h3, h4, h5]
    · intro h1 h2 h3 h4 h5 v h6
      simp [extract_terminal_effective_cwd, cwdPatternSearches, firstSome,
        h1, h2, h3, h4, h5, h6]
    · intro h1 h2 h3 h4 h5 h6
      simp [extract_terminal_effective_cwd, cwdPatternSearches, firstSome,
        h1, h2, h3, h4, h5, h6]
  · intro inp htool hfp hext
    rw [htool] at hfp
    rcases hext with h | h <;>
      simp [ptuFilePath, htool, hfp, h, optTruthy]

/-- Witness for C7's amended theorem: a command with no directory-change
idiom leaves the cwd hint in force. -/
theorem C7_witness :
    ptuFilePath (HookInput.mk "run_in_terminal"
      (ToolInput.mk none none [] "echo hi") (some "/w")) = some "/w" := by
  exact C7_effective_cwd_amended.2.2.2
    (HookInput.mk "run_in_terminal" (ToolInput.mk none none [] "echo hi") (some "/w"))
    rfl (by decide) (Or.inl (by decide))

/-- Every board returned by _scan_boards_dir comes from a directory entry
whose name does not start with "_", and its provenance is the container
path followed by that entry name and /board.json. -/
theorem scan_boards_dir_mem (pathTo : String) (entries : List DirEntry) (b : Board)
    (hb : b ∈ scan_boards_dir pathTo entries) :
    ∃ name, strStartsWith name "_" = false ∧
      b.path = pathTo ++ name ++ "/board.json" := by
  induction entries with
  | nil => simp [scan_boards_dir] at hb
  | cons e rest ih =>
    simp only [scan_boards_dir] at hb
    by_cases hc : (!e.isDir || strStartsWith e.name "_") = true
    · rw [if_pos hc] at hb
      exact ih hb
    · rw [if_neg hc] at hb
      simp only [Bool.or_eq_true, not_or, Bool.not_eq_true] at hc
      cases hbv : e.board with
      | none => rw [hbv] at hb; exact ih hb
      | some j =>
        rw [hbv] at hb
        rcases List.mem_cons.mp hb with heq | hmem
        · subst heq
          exact ⟨e.name, hc.2, rfl⟩
        · exact ih hmem

/-- C8 counterexample: a worktree directory named "_old" is NOT skipped
by find_active_boards, so the scan returns a record whose provenance path
contains the directory component "_old", which starts with "_". -/
theorem C8_counterexample :
    (find_active_boards (RepoFS.mk (some [])
        (some [WorktreeEntry.mk "_old" true
          (some [DirEntry.mk "b" true (some (JVal.obj []))])]))).map
      (fun b => b.path) = [".worktrees/_old/.copilot/boards/b/board.json"] ∧
    hasUnderscoreComponent ".worktrees/_old/.copilot/boards/b/board.json" = true :=
  ⟨by decide, by decide⟩

/-- C8 amended: within each boards container (repo root and every
worktree) subdirectories whose name starts with "_" are skipped, so the
board-directory component of every returned provenance never starts with
"_"; the worktree-name component, however, is not filtered. -/
theorem C8_scan_amended (fs : RepoFS) (b : Board)
    (hb : b ∈ find_active_boards fs) :
    ∃ name, strStartsWith name "_" = false ∧
      (b.path = ".copilot/boards/" ++ name ++ "/board.json" ∨
       ∃ wt, b.path = ".worktrees/" ++ wt ++ "/.copilot/boards/" ++ name ++
         "/board.json") := by
  rcases List.mem_append.mp hb with h | h
  · cases hre : fs.rootEntries with
    | none => rw [rootBoards, hre] at h; cases h
    | some entries =>
      rw [rootBoards, hre] at h
      obtain ⟨nm, h1, h2⟩ := scan_boards_dir_mem _ _ _ h
      exact ⟨nm, h1, Or.inl h2⟩
  · cases hwt : fs.worktrees with
    | none => rw [worktreeBoards, hwt] at h; cases h
    | some wts =>
      rw [worktreeBoards, hwt] at h
      obtain ⟨wt, hwtmem, hbm⟩ := List.mem_flatMap.mp h
      by_cases hd : (!wt.isDir) = true
      · rw [if_pos hd] at hbm; cases hbm
      · rw [if_neg hd] at hbm
        cases hbe : wt.boardsEntries with
        | none =>
          rw [hbe] at hbm
          simp only [scan_boards_dirOpt] at hbm
          cases hbm
        | some entries =>
          rw [hbe] at hbm
          simp only [scan_boards_dirOpt] at hbm
          obtain ⟨nm, h1, h2⟩ := scan_boards_dir_mem _ _ _ hbm
          refine ⟨nm, h1, Or.inr ⟨wt.name, ?_⟩⟩
          rw [h2]

/-- Witness for C8's amended theorem: a regular worktree board's
provenance decomposes as required. -/
theorem C8_witness :
    ∃ name, strStartsWith name "_" = false ∧
      ((Board.mk (JVal.obj []) ".worktrees/wt1/.copilot/boards/bd/board.json").path =
        ".copilot/boards/" ++ name ++ "/board.json" ∨
       ∃ wt, (Board.mk (JVal.obj [])
          ".worktrees/wt1/.copilot/boards/bd/board.json").path =
         ".worktrees/" ++ wt ++ "/.copilot/boards/" ++ name ++ "/board.json") := by
  apply C8_scan_amended (RepoFS.mk none
    (some [WorktreeEntry.mk "wt1" true
      (some [DirEntry.mk "bd" true (some (JVal.obj []))])]))
  show _ ∈ find_active_boards _
  have hs : find_active_boards (RepoFS.mk none
      (some [WorktreeEntry.mk "wt1" true
        (some [DirEntry.mk "bd" true (some (JVal.obj []))])])) =
      [Board.mk (JVal.obj []) ".worktrees/wt1/.copilot/boards/bd/board.json"] := by
    rfl
  rw [hs]
  exact List.mem_singleton.mpr rfl

/-- C9: the decision functions are deterministic — two runs of the
pre-tool-use pipeline, or of the stop-time check, on an identical event
together with identical external (filesystem/VCS oracle) state yield the
identical decision.  Both embedded mains are pure functions of the event
and the oracle record; no other input exists. -/
theorem C9_determinism (inp1 inp2 : HookInput) (env1 env2 : PtuEnv)
    (f1 f2 : Bool) (s1 s2 : StopEnv)
    (hi : inp1 = inp2) (he : env1 = env2) (hf : f1 = f2) (hs : s1 = s2) :
    ptuMain inp1 env1 = ptuMain inp2 env2 ∧ stopMain f1 s1 = stopMain f2 s2 := by
  subst hi; subst he; subst hf; subst hs
  exact ⟨rfl, rfl⟩

/-- Witness for C9 at concrete equal inputs. -/
theorem C9_witness :
    ptuMain (HookInput.mk "noop" (ToolInput.mk none none [] "") none)
        (PtuEnv.mk none (fun _ => none) "") =
      ptuMain (HookInput.mk "noop" (ToolInput.mk none none [] "") none)
        (PtuEnv.mk none (fun _ => none) "") ∧
    stopMain false (StopEnv.mk none (GitTree.mk "" "") [] []) =
      stopMain false (StopEnv.mk none (GitTree.mk "" "") [] []) :=
  C9_determinism _ _ _ _ _ _ _ _ rfl rfl rfl rfl

/-- C10: when the board scan is non-empty, the sub-agent context is built
exclusively from the first board in scan order — replacing every later
board changes nothing — and the scan order puts repo-root container
boards before worktree boards, so a non-empty repo-root container
supplies the head of the scan. -/
theorem C10_first_board_only (a : String) (st : Option JVal) (b : Board)
    (r r2 : List Board) :
    subagentMain a st (b :: r) = subagentMain a st (b :: r2) ∧
    (∀ fs : RepoFS, rootBoards fs ≠ [] →
      (find_active_boards fs).head? = (rootBoards fs).head?) := by
  constructor
  · rfl
  · intro fs h
    cases hr : rootBoards fs with
    | nil => exact absurd hr h
    | cons x xs => simp [find_active_boards, hr]

/-- Witness for C10: with one repo-root board present, the scan's head is
that repo-root board. -/
theorem C10_witness :
    (find_active_boards (RepoFS.mk
        (some [DirEntry.mk "bd" true (some (JVal.obj []))]) none)).head? =
      (rootBoards (RepoFS.mk
        (some [DirEntry.mk "bd" true (some (JVal.obj []))]) none)).head? := by
  apply (C10_first_board_only "manager" none (Board.mk (JVal.obj []) "p") [] []).2
  rw [show rootBoards (RepoFS.mk
        (some [DirEntry.mk "bd" true (some (JVal.obj []))]) none) =
      [Board.mk (JVal.obj []) ".copilot/boards/bd/board.json"] from rfl]
  simp

end CopilotHooks
